import Mathlib

/-!
Shallow embedding of the process-introspection toolkit in `src/main.rs`.

The core under verification is the Toolhelp snapshot iterator
(`TlHelpIter`), the directory views over it the claims exercise
(`ProcessEntry`, `ThreadEntry`), and the `Process` handle abstraction
(`from_pid`, `from_name`, `from_handle`, `get_modules`, `write_memory`,
`get_address_by_symbol`).

The OS enumeration and process-object protocols are external collaborators
(spec section 6); they are modelled here as explicit structures of response
functions threaded through the embedded code.  String encoding conversions
and human-readable error-message formatting are out of scope (spec section
1), so an error value is represented by the platform error code it would be
formatted from.  Machine integers are modelled as `Nat`/`Int`; no operation
of the embedded fragment can overflow behaviourally (handles and pids are
opaque values, lengths are small).
-/

namespace WinProc

/-- Which of the two fetch collaborators a call to `next_item` invoked:
`Process32FirstW`-style fetch-first, or `Process32NextW`-style fetch-next. -/
inductive FetchOp where
  | first
  | next
deriving DecidableEq

/-- The platform value `INVALID_HANDLE_VALUE` (`-1` as a pointer). -/
def INVALID_HANDLE_VALUE : Int := -1

/-- OS-side state of one Toolhelp snapshot: the point-in-time row list the
snapshot captured, and the cursor the fetch-first/fetch-next protocol keeps
for the handle. -/
structure Snapshot (T : Type) where
  rows : List T
  pos : Nat
deriving DecidableEq

/-- The fetch-first collaborator (`Process32FirstW` / `Thread32First` /
`Module32FirstW`): rewinds to the first captured row, reports whether a row
is available, and overwrites the row buffer of the caller on success.  Modelled
from the spec (section 6): fetch-first(handle, row) returns a bool. -/
def fetchFirst {T : Type} (s : Snapshot T) (d : T) : Bool × Snapshot T × T :=
  if h : 0 < s.rows.length then (true, ⟨s.rows, 1⟩, s.rows.get ⟨0, h⟩)
  else (false, s, d)

/-- The fetch-next collaborator (`Process32NextW` / `Thread32Next` /
`Module32NextW`): yields the row at the cursor and advances it, or reports
end of enumeration (and keeps reporting it).  Modelled from the spec
(section 6): fetch-next(handle, row) returns a bool. -/
def fetchNext {T : Type} (s : Snapshot T) (d : T) : Bool × Snapshot T × T :=
  if h : s.pos < s.rows.length then (true, ⟨s.rows, s.pos + 1⟩, s.rows.get ⟨s.pos, h⟩)
  else (false, s, d)

/-- `TlHelpIter<T>` from the source: call counter, owned snapshot handle,
reused row buffer `data`.  The Rust struct stores the two fetch functions as
fields; all three instantiations in the source pass the Toolhelp fetch pair
for their row type, embedded here as `fetchFirst`/`fetchNext` over the
snapshot state.  `log` records which fetch collaborator each `next_item`
call invoked (pure instrumentation; it influences nothing). -/
structure TlHelpIter (T : Type) where
  count : Nat
  handle : Int
  snap : Snapshot T
  data : T
  log : List FetchOp

/-- `TlHelpIter::new`: wraps an already-created snapshot handle with a
pre-populated row value and a zero call counter.  (The source asserts the
handle is not `INVALID_HANDLE_VALUE`; that precondition is a fail-fast
programming-error check, spec section 7.) -/
def TlHelpIter.new {T : Type} (handle : Int) (snap : Snapshot T) (data : T) : TlHelpIter T :=
  { count := 0, handle := handle, snap := snap, data := data, log := [] }

/-- `TlHelpIter::next_item`: on the first call (`count == 0`) invokes the
fetch-first collaborator, on every later call fetch-next; increments the
call counter; returns whether a new row is available. -/
def TlHelpIter.next_item {T : Type} (it : TlHelpIter T) : Bool × TlHelpIter T :=
  let op : FetchOp := if it.count > 0 then FetchOp.next else FetchOp.first
  let r : Bool × Snapshot T × T :=
    if it.count > 0 then fetchNext it.snap it.data else fetchFirst it.snap it.data
  (r.1, { count := it.count + 1, handle := it.handle, snap := r.2.1, data := r.2.2,
          log := it.log ++ [op] })

/-- `<TlHelpIter as Iterator>::next`: `Some(self.data.clone())` when
`next_item` reports a row, else `None`. -/
def TlHelpIter.next {T : Type} (it : TlHelpIter T) : Option T × TlHelpIter T :=
  let r := it.next_item
  (if r.1 then some r.2.data else none, r.2)

/-- Index of the snapshot row the next successful fetch would deliver:
the fetch-first call reads row 0, fetch-next reads the cursor.
(Proof-side view of the iterator state; not part of the source.) -/
def TlHelpIter.cursorIdx {T : Type} (it : TlHelpIter T) : Nat :=
  if it.count = 0 then 0 else it.snap.pos

/-- Number of snapshot rows the iterator has not yet delivered
(proof-side termination measure). -/
def TlHelpIter.rowsLeft {T : Type} (it : TlHelpIter T) : Nat :=
  it.snap.rows.length - it.cursorIdx

/-- Observable OS calls made by the iterator over its lifetime:
fetch calls against the snapshot handle, and `CloseHandle`. -/
inductive OsEvent where
  | closeHandle : Int → OsEvent
  | fetch : FetchOp → Int → OsEvent
deriving DecidableEq

/-- Whether an OS event is a `CloseHandle` call. -/
def OsEvent.isClose : OsEvent → Bool
  | .closeHandle _ => true
  | .fetch _ _ => false

/-- `<TlHelpIter as Drop>::drop`: one `CloseHandle(self.handle)` call. -/
def TlHelpIter.dropTrace {T : Type} (it : TlHelpIter T) : List OsEvent :=
  [OsEvent.closeHandle it.handle]

/-- Run `next_item` a given number of times (a consumer driving the
iterator and discarding the yields). -/
def advanceN {T : Type} : Nat → TlHelpIter T → TlHelpIter T
  | 0, it => it
  | n + 1, it => advanceN n (it.next_item).2

/-- Full OS-call trace of one iterator lifecycle: the consumer calls
`next_item` `n` times (any `n`, including `0` for immediate abandonment and
values past exhaustion), then the iterator is torn down.  Rust runs
`Drop::drop` on every exit path, normal or unwinding, so teardown is always
the final segment of the trace. -/
def lifecycleTrace {T : Type} (it : TlHelpIter T) (n : Nat) : List OsEvent :=
  let fin := advanceN n it
  fin.log.map (fun op => OsEvent.fetch op fin.handle) ++ fin.dropTrace

/-- The fields of `PROCESSENTRY32W` the source reads (pid and executable
name).  The wide-character name is modelled as a `String`; encoding
conversion is out of scope (spec section 1). -/
structure PROCESSENTRY32W where
  th32ProcessID : Nat
  szExeFile : String
deriving DecidableEq

/-- `ProcessInfo { pid, name }` from the source. -/
structure ProcessInfo where
  pid : Nat
  name : String
deriving DecidableEq

/-- `ProcessEntry`: the process directory view wrapping a `TlHelpIter`. -/
structure ProcessEntry where
  base : TlHelpIter PROCESSENTRY32W

/-- `<ProcessEntry as Iterator>::next`: one `next_item` step; on success the
row is decoded to `ProcessInfo` (pid plus decoded name). -/
def ProcessEntry.next (e : ProcessEntry) : Option ProcessInfo × ProcessEntry :=
  match e.base.next_item with
  | (true, b) => (some { pid := b.data.th32ProcessID, name := b.data.szExeFile }, ⟨b⟩)
  | (false, b) => (none, ⟨b⟩)

/-- Collect the yields of a `ProcessEntry` with explicit fuel
(proof harness; one fuel unit per yield). -/
def ProcessEntry.toListFuel : Nat → ProcessEntry → List ProcessInfo
  | 0, _ => []
  | fuel + 1, e =>
    match e.next with
    | (some i, e') => i :: ProcessEntry.toListFuel fuel e'
    | (none, _) => []

/-- All rows a consumer draining the process directory view receives, in
order.  The fuel `rows.length + 1` always suffices: each yield consumes at
least one captured row (the adequacy is certified by the theorem equating
this with the full decoded row list). -/
def ProcessEntry.toList (e : ProcessEntry) : List ProcessInfo :=
  ProcessEntry.toListFuel (e.base.snap.rows.length + 1) e

/-- `enum_process()`: zeroed `PROCESSENTRY32W` with its size header set,
iterator over a fresh `TH32CS_SNAPPROCESS` snapshot.  The snapshot handle
value and captured rows come from the OS collaborator and are parameters of
the model. -/
def enum_process (rows : List PROCESSENTRY32W) (handle : Int) : ProcessEntry :=
  { base := TlHelpIter.new handle ⟨rows, 0⟩ { th32ProcessID := 0, szExeFile := "" } }

/-- The fields of `THREADENTRY32` the source reads. -/
structure THREADENTRY32 where
  th32OwnerProcessID : Nat
  th32ThreadID : Nat
deriving DecidableEq

/-- `ThreadInfo { pid, tid }` from the source. -/
structure ThreadInfo where
  pid : Nat
  tid : Nat
deriving DecidableEq

/-- `ThreadEntry`: the thread directory view, scoped to an owning pid. -/
structure ThreadEntry where
  base : TlHelpIter THREADENTRY32
  pid : Nat

/-- Body of `<ThreadEntry as Iterator>::next`, a `while self.base.next_item()`
loop: rows whose `th32OwnerProcessID` differs from the scope are skipped with
`continue`; the first row owned by the scope is returned as `ThreadInfo`;
`None` when the fetch reports no more rows.  Fuel bounds the loop (one unit
per fetched row); `ThreadEntry.next` supplies fuel that always suffices. -/
def ThreadEntry.nextFuel : Nat → ThreadEntry → Option ThreadInfo × ThreadEntry
  | 0, e => (none, e)
  | fuel + 1, e =>
    match e.base.next_item with
    | (true, b) =>
      if b.data.th32OwnerProcessID ≠ e.pid then
        ThreadEntry.nextFuel fuel ⟨b, e.pid⟩
      else
        (some ⟨b.data.th32OwnerProcessID, b.data.th32ThreadID⟩, ⟨b, e.pid⟩)
    | (false, b) => (none, ⟨b, e.pid⟩)

/-- `<ThreadEntry as Iterator>::next`. -/
def ThreadEntry.next (e : ThreadEntry) : Option ThreadInfo × ThreadEntry :=
  ThreadEntry.nextFuel (e.base.rowsLeft + 1) e

/-- Collect the yields of a `ThreadEntry` with explicit fuel. -/
def ThreadEntry.toListFuel : Nat → ThreadEntry → List ThreadInfo
  | 0, _ => []
  | fuel + 1, e =>
    match e.next with
    | (some i, e') => i :: ThreadEntry.toListFuel fuel e'
    | (none, _) => []

/-- All `ThreadInfo` records a consumer draining the thread directory view
receives, in order. -/
def ThreadEntry.toList (e : ThreadEntry) : List ThreadInfo :=
  ThreadEntry.toListFuel (e.base.snap.rows.length + 1) e

/-- `enum_thread(pid)`: zeroed `THREADENTRY32` with the owning pid
pre-populated, iterator over a fresh `TH32CS_SNAPTHREAD` snapshot (which the
OS fills with rows of all threads system-wide), scope stored alongside. -/
def enum_thread (rows : List THREADENTRY32) (pid : Nat) (handle : Int) : ThreadEntry :=
  { base := TlHelpIter.new handle ⟨rows, 0⟩ ⟨pid, 0⟩, pid := pid }

/-- Proof-side spec helper: first row of a stream owned by `pid`, together
with the number of rows consumed to reach and include it (stream length when
there is no such row). -/
def threadScan (pid : Nat) : List THREADENTRY32 → Option THREADENTRY32 × Nat
  | [] => (none, 0)
  | r :: rs =>
    if r.th32OwnerProcessID = pid then (some r, 1)
    else
      let s := threadScan pid rs
      (s.1, s.2 + 1)

/-- The platform error code `ERROR_INVALID_HANDLE`. -/
def ERROR_INVALID_HANDLE : Nat := 6

/-- The platform error code `ERROR_ACCESS_DENIED`. -/
def ERROR_ACCESS_DENIED : Nat := 5

/-- Error values of the `Process` constructors.  The source returns
`Result<_, String>`; the message-formatting collaborator (`last_error_str`,
spec sections 1 and 6) is out of scope, so an `Err(last_error_str())` is
represented by the platform error code the message is formatted from, and
the fixed literal `Err("This Process is not exists".to_string())` by
`notFound`. -/
inductive ProcErr where
  | osError : Nat → ProcErr
  | notFound : ProcErr
deriving DecidableEq

/-- `Process { pid, handle }` from the source. -/
structure Process where
  pid : Nat
  handle : Int
deriving DecidableEq

/-- The OS process-object collaborators `Process::from_pid` /
`Process::from_handle` call, modelled from the spec (section 6):
open(pid, access) returns a handle or the failure indicator, and
get-pid(handle) returns the pid or zero.  `openHandle pid` is the value
`OpenProcess(PROCESS_ALL_ACCESS, 0, pid)` returns (the platform failure
indicator is NULL, i.e. `0`); `openError pid` is the thread-ambient last
error immediately after a failed open; `handlePid h` is `GetProcessId(h)`
(zero on failure); `pidError h` is the last error immediately after a
failed `GetProcessId`. -/
structure ProcOs where
  openHandle : Nat → Int
  openError : Nat → Nat
  handlePid : Int → Nat
  pidError : Int → Nat

/-- `Process::from_handle`: queries the pid of the native handle; zero means
failure, surfaced as `Err(last_error_str())`.  Otherwise the handle is
adopted.  (`SymInitializeW` is also called fire-and-forget; it has no
observable effect on this result and is modelled separately by the
symbol-resolution collaborator.) -/
def Process.from_handle (os : ProcOs) (handle : Int) : Except ProcErr Process :=
  let pid := os.handlePid handle
  if pid = 0 then Except.error (ProcErr.osError (os.pidError handle))
  else Except.ok { pid := pid, handle := handle }

/-- `Process::from_pid`: opens the process with full access, returns
`Err(last_error_str())` if the returned handle equals
`INVALID_HANDLE_VALUE`, otherwise delegates to `from_handle`.  (Note: the
comparison in the source really is against `INVALID_HANDLE_VALUE`, not
against NULL.) -/
def Process.from_pid (os : ProcOs) (pid : Nat) : Except ProcErr Process :=
  let handle := os.openHandle pid
  if handle = INVALID_HANDLE_VALUE then Except.error (ProcErr.osError (os.openError pid))
  else Process.from_handle os handle

/-- Whether `pat` occurs at the start of `hay` (character-wise). -/
def listStarts : List Char → List Char → Bool
  | _, [] => true
  | [], _ :: _ => false
  | c :: t, d :: u => c == d && listStarts t u

/-- Whether `pat` occurs contiguously anywhere in `hay`: the semantics of
Rust `str::find(pat).is_some()` for a literal pattern (case-sensitive
substring containment). -/
def containsSub : List Char → List Char → Bool
  | [], pat => pat.isEmpty
  | c :: t, pat => listStarts (c :: t) pat || containsSub t pat

/-- Case-sensitive substring containment on `String`. -/
def strContains (hay pat : String) : Bool :=
  containsSub hay.data pat.data

/-- `Process::from_name`: drives the process directory view, filtered to
names containing the given substring, and returns `from_pid` of the first
match; `Err("This Process is not exists")` when the filter matches no row.
The enumeration rows captured by the snapshot are a parameter (the snapshot
handle value is irrelevant to the result and fixed to `1`). -/
def Process.from_name (os : ProcOs) (rows : List PROCESSENTRY32W) (name : String) :
    Except ProcErr Process :=
  match (enum_process rows 1).toList.find? (fun p => strContains p.name name) with
  | some p => Process.from_pid os p.pid
  | none => Except.error ProcErr.notFound

/-- Teardown of a `Process` value: the source implements `Drop` only for
`TlHelpIter`; `Process` has no `Drop` impl and no other call site ever
passes a process handle to `CloseHandle`, so dropping a `Process` performs
no OS call at all. -/
def Process.dropTrace (_p : Process) : List OsEvent := []

/-- The process-memory write collaborator, modelled from the spec
(section 6): write-memory(handle, address, bytes) returns (success,
bytes-written).  `writeProcessMemory h a d` is the pair of the
`WriteProcessMemory` success flag and the value it stores through
`lpNumberOfBytesWritten`. -/
structure WriteApi where
  writeProcessMemory : Int → Nat → List Nat → Bool × Nat

/-- `Process::write_memory`: returns the byte count the OS reported when
`WriteProcessMemory` succeeded, and `0` when the call failed outright. -/
def Process.write_memory (api : WriteApi) (p : Process) (address : Nat) (data : List Nat) :
    Nat :=
  let r := api.writeProcessMemory p.handle address data
  if r.1 then r.2 else 0

/-- The fields of `SYMBOL_INFOW` the source reads after the call: the
resolved address.  The struct is zero-initialised before the call (its
self-describing size header, which the source sets, carries no behaviour
here). -/
structure SYMBOL_INFOW where
  address : Nat
deriving DecidableEq

/-- The symbol-resolution collaborator, modelled from the spec (section 6):
resolve(handle, qualified-name) fills the `SYMBOL_INFOW` of the caller and
reports success.  On failure the struct keeps the value passed in. -/
structure SymApi where
  symFromNameW : Int → String → SYMBOL_INFOW → Bool × SYMBOL_INFOW

/-- `Process::get_address_by_symbol`: zero-initialises a `SYMBOL_INFOW`,
calls `SymFromNameW`, and returns `si.Address` on success and the plain
value `0` otherwise — the return type carries no error. -/
def Process.get_address_by_symbol (api : SymApi) (p : Process) (symbol : String) : Nat :=
  let si : SYMBOL_INFOW := { address := 0 }
  let r := api.symFromNameW p.handle symbol si
  if r.1 then r.2.address else 0

/-- The field of `MODULEINFO` the source reads (`SizeOfImage`). -/
structure MODULEINFO where
  sizeOfImage : Nat
deriving DecidableEq

/-- `ModuleInfo { name, base, size }` from the source.  `base` is the module
handle value widened to an unsigned integer. -/
structure ModuleInfo where
  name : String
  base : Nat
  size : Nat
deriving DecidableEq

/-- One reply of the `EnumProcessModulesEx` collaborator: the returned
success flag, the value stored through `lpcbNeeded`, and the module handle
values the call stores into the front of the buffer of the caller (never more than the
buffer holds; `0` is the null module handle). -/
structure EnumReply where
  result : Bool
  needed : Nat
  written : List Nat
deriving DecidableEq

/-- The module-query collaborators `Process::get_modules` /
`Process::get_module_name` call, modelled from the spec (section 6):
query-module-list returns (success, slots-needed), query-module-info
returns info or failure, query-name returns a string or fails.
`enumFirst`/`enumSecond` are the replies to the first and (if made) second
`EnumProcessModulesEx` call; `getModuleInformation h` is `some info` when
`GetModuleInformation` succeeds for module handle `h`; `getModuleBaseName h`
is `some name` when `GetModuleBaseNameW` reports a positive length;
`nameError h` is the last error immediately after a failed name query. -/
structure ModuleApi where
  enumFirst : EnumReply
  enumSecond : EnumReply
  getModuleInformation : Nat → Option MODULEINFO
  getModuleBaseName : Nat → Option String
  nameError : Nat → Nat

/-- Runtime aborts `get_modules` can hit: `.unwrap()` on an `Err` (carrying
the error code the `Err` was built from), and a slice index past the buffer
length. -/
inductive RtAbort where
  | unwrapErr : Nat → RtAbort
  | indexOutOfBounds : RtAbort
deriving DecidableEq

/-- The effect of the OS writing `w` into the front of buffer `buf`
(never beyond the buffer): the prefix is replaced, the tail survives. -/
def writeBuf (buf w : List Nat) : List Nat :=
  w.take buf.length ++ buf.drop w.length

/-- `Vec::resize(n, 0)`: truncate to `n` slots or pad with zeros up to
`n` slots. -/
def resizeBuf (buf : List Nat) (n : Nat) : List Nat :=
  buf.take n ++ List.replicate (n - buf.length) 0

/-- `Process::get_module_name`: queries the display name of a module into a
fixed buffer; a positive reported length is `Ok(name)`, otherwise
`Err(last_error_str())`, represented by the code it formats. -/
def Process.get_module_name (api : ModuleApi) (_p : Process) (module : Nat) :
    Except Nat String :=
  match api.getModuleBaseName module with
  | some s => Except.ok s
  | none => Except.error (api.nameError module)

/-- The `for i in 0 .. needed` loop of `get_modules` over the module-handle
buffer: index the buffer (a Rust slice index, aborting past the end), stop
at the first null handle, query `GetModuleInformation` (skipping the module
when it fails), resolve the display name with `get_module_name(..).unwrap()`
(aborting when the name query fails), and push the `ModuleInfo`.  The fuel
argument is `needed - i` and makes the loop structural. -/
def modLoopGo (api : ModuleApi) (p : Process) (buf : List Nat) :
    Nat → Nat → List ModuleInfo → Except RtAbort (List ModuleInfo)
  | 0, _, acc => Except.ok acc
  | fuel + 1, i, acc =>
    match buf.get? i with
    | none => Except.error RtAbort.indexOutOfBounds
    | some hModule =>
      if hModule = 0 then Except.ok acc
      else
        match api.getModuleInformation hModule with
        | some modinfo =>
          match Process.get_module_name api p hModule with
          | Except.ok nm =>
            modLoopGo api p buf fuel (i + 1)
              (acc ++ [{ name := nm, base := hModule, size := modinfo.sizeOfImage }])
          | Except.error e => Except.error (RtAbort.unwrapErr e)
        | none => modLoopGo api p buf fuel (i + 1) acc

/-- Observable outcome of one `Process::get_modules` call: the buffer slot
counts passed to each `EnumProcessModulesEx` call, in order (the byte count
`cb` passed alongside is `size_of::<HMODULE>()` times this), and the result
— `Ok(none)` for the `None` return, `Ok(some list)` for `Some(list)`, and
`Error` when the call aborts at runtime. -/
structure ModulesRun where
  calls : List Nat
  out : Except RtAbort (Option (List ModuleInfo))

/-- `Process::get_modules`: first `EnumProcessModulesEx` attempt with a
64-slot buffer; the buffer is then resized to the reported `needed` value;
only if the first attempt failed, exactly one retry with the resized
buffer; `None` when the (possibly retried) result is still failure;
otherwise the handle loop builds the list, bounded by the final `needed`
value. -/
def Process.get_modules (api : ModuleApi) (p : Process) : ModulesRun :=
  let buf0 : List Nat := List.replicate 64 0
  let r1 := api.enumFirst
  let buf1 := writeBuf buf0 r1.written
  let buf2 := resizeBuf buf1 r1.needed
  if r1.result then
    { calls := [64], out := (modLoopGo api p buf2 r1.needed 0 []).map Option.some }
  else
    let r2 := api.enumSecond
    let buf3 := writeBuf buf2 r2.written
    if r2.result then
      { calls := [64, buf2.length],
        out := (modLoopGo api p buf3 r2.needed 0 []).map Option.some }
    else
      { calls := [64, buf2.length], out := Except.ok Option.none }

/-! ### Concrete scenario instances (used by closed theorems and witnesses) -/

/-- An OS in which `OpenProcess` fails for every pid (object absent or
access denied): the open returns NULL (`0`) — the platform failure
indicator — and sets the last error to `ERROR_ACCESS_DENIED`;
`GetProcessId` on the NULL handle (the only handle this scenario ever
queries) fails with `0`, setting the last error to
`ERROR_INVALID_HANDLE` — the documented platform behaviour. -/
def deniedOs : ProcOs :=
  { openHandle := fun _ => 0
    openError := fun _ => ERROR_ACCESS_DENIED
    handlePid := fun _ => 0
    pidError := fun _ => ERROR_INVALID_HANDLE }

/-- An OS in which `OpenProcess(pid)` succeeds with handle `pid + 100` and
`GetProcessId` reads the pid back from the handle. -/
def scen7os : ProcOs :=
  { openHandle := fun pid => Int.ofNat (pid + 100)
    openError := fun _ => 0
    handlePid := fun h => (h - 100).toNat
    pidError := fun _ => ERROR_INVALID_HANDLE }

/-- The process directory of the name-lookup scenario in the spec
(section 8): pids 10, 11, 12 named alpha, beta-helper, beta. -/
def scen7rows : List PROCESSENTRY32W :=
  [⟨10, "alpha"⟩, ⟨11, "beta-helper"⟩, ⟨12, "beta"⟩]

/-- The thread row stream of the filtering scenario in the spec
(section 8): owning pids A, B, A, C, A rendered as 1, 2, 1, 3, 1. -/
def scen4rows : List THREADENTRY32 :=
  [⟨1, 10⟩, ⟨2, 20⟩, ⟨1, 30⟩, ⟨3, 40⟩, ⟨1, 50⟩]

/-- A concrete opened process value. -/
def procW : Process := { pid := 7, handle := 77 }

/-- A write collaborator that reports success and a written count equal to
the requested length (in particular `(true, 0)` for an empty write). -/
def wapi8 : WriteApi := ⟨fun _ _ d => (true, d.length)⟩

/-- A symbol-resolution collaborator that reports not-found for every
name. -/
def sapi9 : SymApi := ⟨fun _ _ si => (false, si)⟩

/-- A symbol-resolution collaborator that resolves every name to address
`4660`. -/
def sapi9ok : SymApi := ⟨fun _ _ _ => (true, ⟨4660⟩)⟩

/-- The buffer-growth scenario of the spec (section 8): the first module
query fails reporting 3 slots needed; the retry succeeds storing two
non-null handles; the per-module queries succeed. -/
def api3 : ModuleApi :=
  { enumFirst := ⟨false, 3, []⟩
    enumSecond := ⟨true, 3, [100, 200]⟩
    getModuleInformation := fun _ => some ⟨4096⟩
    getModuleBaseName := fun _ => some "mod"
    nameError := fun _ => 0 }

/-- A module collaborator whose first query succeeds with one non-null
handle whose information query succeeds but whose name query fails with
error code 31. -/
def api10 : ModuleApi :=
  { enumFirst := ⟨true, 1, [100]⟩
    enumSecond := ⟨false, 0, []⟩
    getModuleInformation := fun _ => some ⟨4096⟩
    getModuleBaseName := fun _ => none
    nameError := fun _ => 31 }

/-! ### Helper lemmas about the snapshot iterator -/

theorem next_item_fields {T : Type} (it : TlHelpIter T) :
    (it.next_item).2.count = it.count + 1 ∧
    (it.next_item).2.handle = it.handle ∧
    (it.next_item).2.log
      = it.log ++ [if it.count > 0 then FetchOp.next else FetchOp.first] ∧
    (it.next_item).2.snap.rows = it.snap.rows := by
  unfold TlHelpIter.next_item fetchFirst fetchNext
  by_cases h : it.count > 0 <;> simp only [h, if_true, if_false] <;> split <;> simp

theorem next_item_succ_iff {T : Type} (it : TlHelpIter T) :
    (it.next_item).1 = true ↔ it.cursorIdx < it.snap.rows.length := by
  unfold TlHelpIter.next_item fetchFirst fetchNext TlHelpIter.cursorIdx
  by_cases h : it.count > 0
  · have h0 : ¬ it.count = 0 := by omega
    simp only [h, h0, if_true, if_false]
    split <;> simp_all
  · have h0 : it.count = 0 := by omega
    simp only [h, h0, if_true, if_false, if_pos rfl]
    by_cases hl : 0 < it.snap.rows.length <;> simp [hl]

theorem next_item_succ_state {T : Type} (it : TlHelpIter T)
    (hclean : it.count = 0 → it.snap.pos = 0)
    (h : it.snap.pos < it.snap.rows.length) :
    (it.next_item).1 = true ∧
    (it.next_item).2.snap.pos = it.snap.pos + 1 ∧
    (it.next_item).2.data = it.snap.rows.get ⟨it.snap.pos, h⟩ := by
  unfold TlHelpIter.next_item fetchFirst fetchNext
  by_cases hc : it.count > 0
  · simp only [hc, if_true]
    split <;> simp_all
  · have h0 : it.count = 0 := by omega
    have hp : it.snap.pos = 0 := hclean h0
    have hl : 0 < it.snap.rows.length := by omega
    simp only [hc, if_false]
    split <;> simp_all

theorem next_item_fail_state {T : Type} (it : TlHelpIter T)
    (h : ¬ it.cursorIdx < it.snap.rows.length) :
    (it.next_item).1 = false ∧ (it.next_item).2.snap = it.snap := by
  unfold TlHelpIter.next_item fetchFirst fetchNext
  unfold TlHelpIter.cursorIdx at h
  by_cases hc : it.count > 0
  · have h0 : ¬ it.count = 0 := by omega
    simp only [h0, if_false] at h
    simp only [hc, if_true]
    split <;> simp_all
  · have h0 : it.count = 0 := by omega
    simp only [h0, if_true] at h
    have hl : ¬ 0 < it.snap.rows.length := h
    simp only [hc, if_false]
    split <;> simp_all

theorem next_item_exh {T : Type} (it : TlHelpIter T)
    (h : it.snap.rows.length ≤ it.cursorIdx) :
    (it.next_item).1 = false ∧
    (it.next_item).2.snap.rows.length ≤ (it.next_item).2.cursorIdx := by
  have hfail := next_item_fail_state it (by omega)
  have hfields := next_item_fields it
  refine ⟨hfail.1, ?_⟩
  have hsnap : (it.next_item).2.snap = it.snap := hfail.2
  have hcount : (it.next_item).2.count = it.count + 1 := hfields.1
  unfold TlHelpIter.cursorIdx
  unfold TlHelpIter.cursorIdx at h
  rw [hsnap, hcount]
  simp only [Nat.succ_ne_zero, if_false]
  by_cases h0 : it.count = 0
  · simp only [h0, if_true] at h
    omega
  · simp only [h0, if_false] at h
    omega

theorem advanceN_handle {T : Type} :
    ∀ (n : Nat) (it : TlHelpIter T), (advanceN n it).handle = it.handle
  | 0, _ => rfl
  | n + 1, it => by
    rw [advanceN, advanceN_handle n, (next_item_fields it).2.1]

theorem advanceN_log_of_pos {T : Type} :
    ∀ (n : Nat) (it : TlHelpIter T), 0 < it.count →
      (advanceN n it).log = it.log ++ List.replicate n FetchOp.next ∧
      0 < (advanceN n it).count := by
  intro n
  induction n with
  | zero => intro it h; simpa [advanceN] using h
  | succ n ih =>
    intro it h
    have hfields := next_item_fields it
    have hcount : 0 < (it.next_item).2.count := by omega
    have ihh := ih (it.next_item).2 hcount
    rw [advanceN]
    refine ⟨?_, ihh.2⟩
    rw [ihh.1, hfields.2.2.1, if_pos h, List.append_assoc]
    rfl

theorem advanceN_exh {T : Type} :
    ∀ (n : Nat) (it : TlHelpIter T),
      it.snap.rows.length ≤ it.cursorIdx →
      (advanceN n it).snap.rows.length ≤ (advanceN n it).cursorIdx
  | 0, _, h => h
  | n + 1, it, h => by
    rw [advanceN]
    exact advanceN_exh n _ (next_item_exh it h).2

/-! ### Claim theorems about the snapshot iterator -/

/-- C5: on a `TlHelpIter`, the first `next_item` call invokes the
fetch-first collaborator and every later call invokes fetch-next (the call
log after `k ≥ 1` calls is fetch-first followed by `k - 1` fetch-nexts,
each call returning the availability flag the fetch reported); and once a
call reports no more rows, every further `next_item` keeps reporting
`false` and every further `Iterator::next` yields `None`. -/
theorem tlhelp_advance_spec (T : Type) :
    (∀ (handle : Int) (rows : List T) (d : T) (k : Nat), 0 < k →
      (advanceN k (TlHelpIter.new handle ⟨rows, 0⟩ d)).log
        = FetchOp.first :: List.replicate (k - 1) FetchOp.next)
    ∧ (∀ it : TlHelpIter T, (it.next_item).1 = false →
      ∀ n : Nat,
        ((advanceN n (it.next_item).2).next_item).1 = false ∧
        ((advanceN n (it.next_item).2).next).1 = none) := by
  constructor
  · intro handle rows d k hk
    obtain ⟨k, rfl⟩ : ∃ m, k = m + 1 := ⟨k - 1, by omega⟩
    set it0 : TlHelpIter T := TlHelpIter.new handle ⟨rows, 0⟩ d with hit0
    have hfields := next_item_fields it0
    have hcount0 : it0.count = 0 := rfl
    have hlog1 : (it0.next_item).2.log = [FetchOp.first] := by
      rw [hfields.2.2.1]
      simp [hcount0, hit0, TlHelpIter.new]
    have hcount1 : 0 < (it0.next_item).2.count := by omega
    rw [advanceN]
    have := advanceN_log_of_pos k (it0.next_item).2 hcount1
    rw [this.1, hlog1]
    simp
  · intro it hfail n
    have hexh0 : it.snap.rows.length ≤ it.cursorIdx := by
      by_contra hlt
      have h1 := (next_item_succ_iff it).2 (by omega)
      rw [h1] at hfail
      simp at hfail
    have hexh1 := (next_item_exh it hexh0).2
    have hexh := advanceN_exh n (it.next_item).2 hexh1
    have hf : ((advanceN n (it.next_item).2).next_item).1 = false := by
      rw [← Bool.not_eq_true, next_item_succ_iff]
      omega
    exact ⟨hf, by unfold TlHelpIter.next; simp [hf]⟩

/-- Witness for C5: a concrete empty snapshot of naturals; two advances log
fetch-first then fetch-next, and after the first failing call a later call
still reports no row. -/
theorem tlhelp_advance_spec_witness :
    (advanceN 2 (TlHelpIter.new 1 ⟨([] : List Nat), 0⟩ 0)).log
      = [FetchOp.first, FetchOp.next] ∧
    ((advanceN 1 ((TlHelpIter.new 1 ⟨([] : List Nat), 0⟩ 0).next_item).2).next_item).1
      = false := by
  constructor
  · have h := (tlhelp_advance_spec Nat).1 1 [] 0 2 (by decide)
    simpa using h
  · exact ((tlhelp_advance_spec Nat).2 (TlHelpIter.new 1 ⟨([] : List Nat), 0⟩ 0) rfl 1).1

theorem fetch_map_no_close (L : List FetchOp) (h : Int) :
    ((L.map (fun op => OsEvent.fetch op h)).countP OsEvent.isClose = 0) ∧
    ((L.map (fun op => OsEvent.fetch op h)).filter OsEvent.isClose = []) := by
  induction L with
  | nil => simp
  | cons a t ih => simp [List.countP_cons, OsEvent.isClose, ih.1, ih.2]

/-- C6: over every complete lifecycle of a `TlHelpIter` — any number `n` of
advance calls (`n = 0` is construction followed by teardown without ever
advancing; large `n` covers normal exhaustion and beyond) followed by the
teardown Rust runs on every exit path, normal or unwinding — the OS-call
trace contains exactly one `CloseHandle`, and it closes the snapshot handle
owned by that iterator: the handle is released exactly once, never leaked and
never double-released. -/
theorem tlhelp_teardown_once (T : Type) (it : TlHelpIter T) (n : Nat) :
    (lifecycleTrace it n).countP OsEvent.isClose = 1 ∧
    (lifecycleTrace it n).filter OsEvent.isClose = [OsEvent.closeHandle it.handle] := by
  unfold lifecycleTrace TlHelpIter.dropTrace
  have h1 := fetch_map_no_close (advanceN n it).log (advanceN n it).handle
  constructor
  · rw [List.countP_append, h1.1]
    simp [OsEvent.isClose]
  · rw [List.filter_append, h1.2, advanceN_handle]
    simp [OsEvent.isClose]

/-! ### Helper lemmas for the thread directory view -/

theorem threadScan_none (pid : Nat) :
    ∀ l : List THREADENTRY32, (threadScan pid l).1 = none →
      l.filter (fun r => r.th32OwnerProcessID == pid) = [] := by
  intro l
  induction l with
  | nil => intro _; simp
  | cons r t ih =>
    intro h
    by_cases hr : r.th32OwnerProcessID = pid
    · simp [threadScan, hr] at h
    · have h' : (threadScan pid t).1 = none := by simpa [threadScan, hr] using h
      simp [hr, ih h']

theorem threadScan_some (pid : Nat) :
    ∀ (l : List THREADENTRY32) (r : THREADENTRY32),
      (threadScan pid l).1 = some r →
      1 ≤ (threadScan pid l).2 ∧ (threadScan pid l).2 ≤ l.length ∧
      l.filter (fun x => x.th32OwnerProcessID == pid)
        = r :: (l.drop (threadScan pid l).2).filter (fun x => x.th32OwnerProcessID == pid) := by
  intro l
  induction l with
  | nil => intro r h; simp [threadScan] at h
  | cons a t ih =>
    intro r h
    by_cases ha : a.th32OwnerProcessID = pid
    · have hr : a = r := by simpa [threadScan, ha] using h
      subst hr
      refine ⟨by simp [threadScan, ha], by simp [threadScan, ha], ?_⟩
      simp [threadScan, ha]
    · have h' : (threadScan pid t).1 = some r := by simpa [threadScan, ha] using h
      have iht := ih r h'
      have h2 : (threadScan pid (a :: t)).2 = (threadScan pid t).2 + 1 := by
        simp [threadScan, ha]
      refine ⟨by omega, by simp [h2]; omega, ?_⟩
      rw [h2]
      simp only [List.drop_succ_cons]
      simpa [ha] using iht.2.2

theorem nextFuel_step_none (fuel : Nat) (e : ThreadEntry) (b : TlHelpIter THREADENTRY32)
    (h : e.base.next_item = (false, b)) :
    ThreadEntry.nextFuel (fuel + 1) e = (none, ⟨b, e.pid⟩) := by
  unfold ThreadEntry.nextFuel
  rw [h]

theorem nextFuel_step_yield (fuel : Nat) (e : ThreadEntry) (b : TlHelpIter THREADENTRY32)
    (h : e.base.next_item = (true, b))
    (heq : b.data.th32OwnerProcessID = e.pid) :
    ThreadEntry.nextFuel (fuel + 1) e
      = (some ⟨b.data.th32OwnerProcessID, b.data.th32ThreadID⟩, ⟨b, e.pid⟩) := by
  unfold ThreadEntry.nextFuel
  rw [h]
  simp [heq]

theorem nextFuel_step_skip (fuel : Nat) (e : ThreadEntry) (b : TlHelpIter THREADENTRY32)
    (h : e.base.next_item = (true, b))
    (hne : b.data.th32OwnerProcessID ≠ e.pid) :
    ThreadEntry.nextFuel (fuel + 1) e = ThreadEntry.nextFuel fuel ⟨b, e.pid⟩ := by
  conv_lhs => unfold ThreadEntry.nextFuel
  rw [h]
  simp [hne]

theorem nextFuel_spec (pid : Nat) :
    ∀ (rest : List THREADENTRY32) (fuel : Nat) (it : TlHelpIter THREADENTRY32),
      (it.count = 0 → it.snap.pos = 0) →
      it.snap.rows.drop it.snap.pos = rest →
      rest.length < fuel →
      ∃ b : TlHelpIter THREADENTRY32,
        ThreadEntry.nextFuel fuel ⟨it, pid⟩
          = (((threadScan pid rest).1).map
              (fun r => (⟨r.th32OwnerProcessID, r.th32ThreadID⟩ : ThreadInfo)),
             ⟨b, pid⟩) ∧
        b.snap.rows = it.snap.rows ∧
        b.snap.pos = it.snap.pos + (threadScan pid rest).2 ∧
        0 < b.count := by
  intro rest
  induction rest with
  | nil =>
    intro fuel it hclean hdrop hfuel
    obtain ⟨f, rfl⟩ : ∃ f, fuel = f + 1 := ⟨fuel - 1, by omega⟩
    have hlen : it.snap.rows.length ≤ it.snap.pos := by
      have := congrArg List.length hdrop
      simp [List.length_drop] at this
      omega
    have hfailc : ¬ it.cursorIdx < it.snap.rows.length := by
      unfold TlHelpIter.cursorIdx
      by_cases h0 : it.count = 0
      · rw [if_pos h0]
        have := hclean h0
        omega
      · rw [if_neg h0]
        omega
    have hfail := next_item_fail_state it hfailc
    have hfields := next_item_fields it
    have hpair : it.next_item = (false, (it.next_item).2) := by
      rw [← hfail.1]
    refine ⟨(it.next_item).2, ?_, ?_, ?_, by omega⟩
    · rw [nextFuel_step_none f ⟨it, pid⟩ (it.next_item).2 hpair]
      simp [threadScan]
    · rw [hfail.2]
    · rw [hfail.2]; simp [threadScan]
  | cons r rs ih =>
    intro fuel it hclean hdrop hfuel
    obtain ⟨f, rfl⟩ : ∃ f, fuel = f + 1 := ⟨fuel - 1, by omega⟩
    have hpos : it.snap.pos < it.snap.rows.length := by
      by_contra hge
      rw [List.drop_eq_nil_of_le (by omega)] at hdrop
      simp at hdrop
    have hsucc := next_item_succ_state it hclean hpos
    have hfields := next_item_fields it
    have hcons := List.drop_eq_getElem_cons (l := it.snap.rows) (n := it.snap.pos) hpos
    rw [hcons] at hdrop
    have hget : it.snap.rows.get ⟨it.snap.pos, hpos⟩ = r := by
      have := (List.cons.injEq _ _ _ _).mp hdrop
      simpa using this.1
    have hdrop' : it.snap.rows.drop (it.snap.pos + 1) = rs :=
      ((List.cons.injEq _ _ _ _).mp hdrop).2
    have hpair : it.next_item = (true, (it.next_item).2) := by
      rw [← hsucc.1]
    have hdata : (it.next_item).2.data = r := by rw [hsucc.2.2, hget]
    by_cases hr : r.th32OwnerProcessID = pid
    · refine ⟨(it.next_item).2, ?_, hfields.2.2.2, ?_, by omega⟩
      · rw [nextFuel_step_yield f ⟨it, pid⟩ (it.next_item).2 hpair (by rw [hdata]; exact hr)]
        rw [hdata]
        simp [threadScan, hr]
      · rw [hsucc.2.1]
        simp [threadScan, hr]
    · have hclean' : (it.next_item).2.count = 0 → (it.next_item).2.snap.pos = 0 := by
        intro h0; omega
      have hdropb : (it.next_item).2.snap.rows.drop (it.next_item).2.snap.pos = rs := by
        rw [hfields.2.2.2, hsucc.2.1]; exact hdrop'
      have hfuel' : rs.length < f := by
        simp at hfuel; omega
      obtain ⟨b, hb, hbrows, hbpos, hbcount⟩ := ih f (it.next_item).2 hclean' hdropb hfuel'
      refine ⟨b, ?_, ?_, ?_, hbcount⟩
      · rw [nextFuel_step_skip f ⟨it, pid⟩ (it.next_item).2 hpair (by rw [hdata]; exact hr)]
        rw [hb]
        simp [threadScan, hr]
      · rw [hbrows, hfields.2.2.2]
      · rw [hbpos, hsucc.2.1]
        simp [threadScan, hr]
        omega

theorem cursorIdx_of_clean {T : Type} (it : TlHelpIter T)
    (hclean : it.count = 0 → it.snap.pos = 0) : it.cursorIdx = it.snap.pos := by
  unfold TlHelpIter.cursorIdx
  by_cases h0 : it.count = 0
  · rw [if_pos h0, hclean h0]
  · rw [if_neg h0]

theorem thread_next_spec (pid : Nat) (rest : List THREADENTRY32)
    (it : TlHelpIter THREADENTRY32)
    (hclean : it.count = 0 → it.snap.pos = 0)
    (hdrop : it.snap.rows.drop it.snap.pos = rest) :
    ∃ b : TlHelpIter THREADENTRY32,
      ThreadEntry.next ⟨it, pid⟩
        = (((threadScan pid rest).1).map
            (fun r => (⟨r.th32OwnerProcessID, r.th32ThreadID⟩ : ThreadInfo)), ⟨b, pid⟩) ∧
      b.snap.rows = it.snap.rows ∧
      b.snap.pos = it.snap.pos + (threadScan pid rest).2 ∧
      0 < b.count := by
  have hlen : it.rowsLeft = rest.length := by
    unfold TlHelpIter.rowsLeft
    rw [cursorIdx_of_clean it hclean, ← hdrop, List.length_drop]
  have hnext : ThreadEntry.next ⟨it, pid⟩ = ThreadEntry.nextFuel (it.rowsLeft + 1) ⟨it, pid⟩ :=
    rfl
  rw [hnext, hlen]
  exact nextFuel_spec pid rest (rest.length + 1) it hclean hdrop (by omega)

theorem toListFuel_step (fuel : Nat) (e : ThreadEntry) :
    ThreadEntry.toListFuel (fuel + 1) e
      = match (e.next).1 with
        | some i => i :: ThreadEntry.toListFuel fuel (e.next).2
        | none => [] := by
  rcases h : e.next with ⟨o, e'⟩
  conv_lhs => unfold ThreadEntry.toListFuel
  rw [h]
  cases o <;> rfl

theorem toListFuel_spec (pid : Nat) :
    ∀ (n : Nat) (rest : List THREADENTRY32) (fuel : Nat) (it : TlHelpIter THREADENTRY32),
      rest.length ≤ n →
      (it.count = 0 → it.snap.pos = 0) →
      it.snap.rows.drop it.snap.pos = rest →
      rest.length < fuel →
      ThreadEntry.toListFuel fuel ⟨it, pid⟩
        = (rest.filter (fun r => r.th32OwnerProcessID == pid)).map
            (fun r => (⟨r.th32OwnerProcessID, r.th32ThreadID⟩ : ThreadInfo)) := by
  intro n
  induction n with
  | zero =>
    intro rest fuel it hn hclean hdrop hfuel
    have hnil : rest = [] := List.length_eq_zero.mp (by omega)
    subst hnil
    obtain ⟨f, rfl⟩ : ∃ f, fuel = f + 1 := ⟨fuel - 1, by omega⟩
    obtain ⟨b, hb, _, _, _⟩ := thread_next_spec pid [] it hclean hdrop
    rw [toListFuel_step, hb]
    simp [threadScan]
  | succ n ih =>
    intro rest fuel it hn hclean hdrop hfuel
    obtain ⟨f, rfl⟩ : ∃ f, fuel = f + 1 := ⟨fuel - 1, by omega⟩
    obtain ⟨b, hb, hbrows, hbpos, hbcount⟩ := thread_next_spec pid rest it hclean hdrop
    rw [toListFuel_step, hb]
    cases hscan : (threadScan pid rest).1 with
    | none =>
      simp [hscan, threadScan_none pid rest hscan]
    | some r =>
      have hts := threadScan_some pid rest r hscan
      have hk1 : 1 ≤ (threadScan pid rest).2 := hts.1
      have hk2 : (threadScan pid rest).2 ≤ rest.length := hts.2.1
      have hlen1 : 1 ≤ rest.length := by omega
      have hih := ih (rest.drop (threadScan pid rest).2) f b
        (by rw [List.length_drop]; omega)
        (by intro h0; omega)
        (by rw [hbrows, hbpos, ← List.drop_drop, hdrop])
        (by rw [List.length_drop]; omega)
      simp only [hscan, Option.map_some']
      rw [hih, hts.2.2]
      simp

/-! ### Claim theorem for the thread directory view -/

/-- C4: for every underlying row stream and every scope pid, draining the
thread directory iterator yields exactly the rows whose owning-pid field
equals the scope, decoded to `ThreadInfo`, in the original relative order —
non-matching rows are skipped, not terminal; in particular for owning pids
1, 2, 1, 3, 1 scoped to 1 it yields exactly the three pid-1 rows in
order. -/
theorem enum_thread_filter_spec (rows : List THREADENTRY32) (pid : Nat) (handle : Int) :
    (enum_thread rows pid handle).toList
      = (rows.filter (fun r => r.th32OwnerProcessID == pid)).map
          (fun r => (⟨r.th32OwnerProcessID, r.th32ThreadID⟩ : ThreadInfo)) ∧
    (enum_thread scen4rows 1 1).toList
      = [⟨1, 10⟩, ⟨1, 30⟩, ⟨1, 50⟩] := by
  constructor
  · exact toListFuel_spec pid rows.length rows (rows.length + 1)
      (TlHelpIter.new handle ⟨rows, 0⟩ ⟨pid, 0⟩)
      (le_refl _) (fun _ => rfl) rfl (by omega)
  · decide

/-! ### Helper lemmas for the process directory view and name lookup -/

theorem next_item_fail_of_drop_nil {T : Type} (it : TlHelpIter T)
    (hclean : it.count = 0 → it.snap.pos = 0)
    (hdrop : it.snap.rows.drop it.snap.pos = []) :
    (it.next_item).1 = false ∧ (it.next_item).2.snap = it.snap := by
  apply next_item_fail_state
  rw [cursorIdx_of_clean it hclean]
  have := congrArg List.length hdrop
  simp [List.length_drop] at this
  omega

theorem procToListFuel_step (fuel : Nat) (e : ProcessEntry) :
    ProcessEntry.toListFuel (fuel + 1) e
      = match (e.next).1 with
        | some i => i :: ProcessEntry.toListFuel fuel (e.next).2
        | none => [] := by
  rcases h : e.next with ⟨o, e'⟩
  conv_lhs => unfold ProcessEntry.toListFuel
  rw [h]
  cases o <;> rfl

theorem procToListFuel_spec :
    ∀ (rest : List PROCESSENTRY32W) (fuel : Nat) (it : TlHelpIter PROCESSENTRY32W),
      (it.count = 0 → it.snap.pos = 0) →
      it.snap.rows.drop it.snap.pos = rest →
      rest.length < fuel →
      ProcessEntry.toListFuel fuel ⟨it⟩
        = rest.map (fun r => (⟨r.th32ProcessID, r.szExeFile⟩ : ProcessInfo)) := by
  intro rest
  induction rest with
  | nil =>
    intro fuel it hclean hdrop hfuel
    obtain ⟨f, rfl⟩ : ∃ f, fuel = f + 1 := ⟨fuel - 1, by omega⟩
    have hfail := next_item_fail_of_drop_nil it hclean hdrop
    have hpair : it.next_item = (false, (it.next_item).2) := by rw [← hfail.1]
    have hnexte : ProcessEntry.next ⟨it⟩ = (none, ⟨(it.next_item).2⟩) := by
      unfold ProcessEntry.next
      rw [hpair]
    rw [procToListFuel_step, hnexte]
    rfl
  | cons r rs ih =>
    intro fuel it hclean hdrop hfuel
    obtain ⟨f, rfl⟩ : ∃ f, fuel = f + 1 := ⟨fuel - 1, by omega⟩
    have hpos : it.snap.pos < it.snap.rows.length := by
      by_contra hge
      rw [List.drop_eq_nil_of_le (by omega)] at hdrop
      simp at hdrop
    have hsucc := next_item_succ_state it hclean hpos
    have hfields := next_item_fields it
    have hcons := List.drop_eq_getElem_cons (l := it.snap.rows) (n := it.snap.pos) hpos
    rw [hcons] at hdrop
    have hget : it.snap.rows.get ⟨it.snap.pos, hpos⟩ = r := by
      have := (List.cons.injEq _ _ _ _).mp hdrop
      simpa using this.1
    have hdrop' : it.snap.rows.drop (it.snap.pos + 1) = rs :=
      ((List.cons.injEq _ _ _ _).mp hdrop).2
    have hpair : it.next_item = (true, (it.next_item).2) := by rw [← hsucc.1]
    have hdata : (it.next_item).2.data = r := by rw [hsucc.2.2, hget]
    have hnexte : ProcessEntry.next ⟨it⟩
        = (some ⟨r.th32ProcessID, r.szExeFile⟩, ⟨(it.next_item).2⟩) := by
      unfold ProcessEntry.next
      rw [hpair]
      simp [hdata]
    have hih := ih f (it.next_item).2 (by intro h0; omega)
      (by rw [hfields.2.2.2, hsucc.2.1]; exact hdrop')
      (by simp at hfuel; omega)
    rw [procToListFuel_step, hnexte]
    simp [hih]

theorem enum_process_toList (rows : List PROCESSENTRY32W) (handle : Int) :
    (enum_process rows handle).toList
      = rows.map (fun r => (⟨r.th32ProcessID, r.szExeFile⟩ : ProcessInfo)) :=
  procToListFuel_spec rows (rows.length + 1)
    (TlHelpIter.new handle ⟨rows, 0⟩ ⟨0, ""⟩) (fun _ => rfl) rfl (by omega)

theorem find?_first_index {α : Type} (p : α → Bool) :
    ∀ (l : List α) (i : Nat) (hi : i < l.length),
      p (l.get ⟨i, hi⟩) = true →
      (∀ x ∈ l.take i, p x = false) →
      l.find? p = some (l.get ⟨i, hi⟩) := by
  intro l
  induction l with
  | nil => intro i hi; simp at hi
  | cons a t ih =>
    intro i hi hp htake
    cases i with
    | zero =>
      have hpa : p a = true := hp
      exact List.find?_cons_of_pos t hpa
    | succ j =>
      have ha : p a = false := htake a (by simp [List.take_succ_cons])
      rw [List.find?_cons_of_neg _ (by simp [ha])]
      exact ih j (by simpa using hi) hp
        (fun x hx => htake x (by rw [List.take_succ_cons]; exact List.mem_cons_of_mem a hx))

/-! ### Claim theorems about Process construction -/

/-- C1 (evaluation at the failing input): in an OS where `OpenProcess`
fails — returning NULL, the platform failure indicator, with last error
`ERROR_ACCESS_DENIED` — `Process::from_pid` does return an error, but the
error it returns is formatted from `ERROR_INVALID_HANDLE` (6), the code set
by `GetProcessId` failing on the NULL handle that slipped past the dead
`INVALID_HANDLE_VALUE` comparison, not from the code of the open failure itself,
`ERROR_ACCESS_DENIED` (5): the open error code is lost. -/
theorem from_pid_open_failure_bug :
    deniedOs.openHandle 4 = 0 ∧
    deniedOs.openError 4 = ERROR_ACCESS_DENIED ∧
    Process.from_pid deniedOs 4 = Except.error (ProcErr.osError ERROR_INVALID_HANDLE) ∧
    ERROR_INVALID_HANDLE ≠ ERROR_ACCESS_DENIED :=
  ⟨rfl, rfl, rfl, by decide⟩

/-- C2 counterexample: dropping a concrete `Process` value does not release
its OS handle exactly once — the teardown trace contains no `CloseHandle`
at all, refuting the claim at this input. -/
theorem process_drop_no_release_cex :
    ¬ ((Process.dropTrace { pid := 4, handle := 42 }).countP OsEvent.isClose = 1) := by
  decide

/-- C2 amended: a `Process` value never releases its owned OS process
handle: the source has no `Drop` impl for `Process` and no call site passes
a process handle to `CloseHandle`, so teardown performs zero releases (the
handle is leaked; in particular it is also never released twice). -/
theorem process_drop_never_releases (p : Process) :
    (Process.dropTrace p).countP OsEvent.isClose = 0 := rfl

/-- C7: `Process::from_name` resolves to `from_pid` of the first process,
in enumeration order, whose name contains the given substring
(case-sensitive), and fails with the not-found error when no name matches;
on the directory alpha(10), beta-helper(11), beta(12) the query "beta"
resolves to pid 11, not 12. -/
theorem from_name_spec (os : ProcOs) (rows : List PROCESSENTRY32W) (name : String) :
    (∀ (i : Nat) (hi : i < rows.length),
      strContains (rows.get ⟨i, hi⟩).szExeFile name = true →
      (∀ r ∈ rows.take i, strContains r.szExeFile name = false) →
      Process.from_name os rows name
        = Process.from_pid os (rows.get ⟨i, hi⟩).th32ProcessID)
    ∧ ((∀ r ∈ rows, strContains r.szExeFile name = false) →
      Process.from_name os rows name = Except.error ProcErr.notFound)
    ∧ Process.from_name os scen7rows "beta" = Process.from_pid os 11 := by
  refine ⟨?_, ?_, ?_⟩
  · intro i hi hp htake
    unfold Process.from_name
    rw [enum_process_toList, List.find?_map]
    have hfind := find?_first_index
      ((fun p : ProcessInfo => strContains p.name name) ∘
        (fun r : PROCESSENTRY32W => (⟨r.th32ProcessID, r.szExeFile⟩ : ProcessInfo)))
      rows i hi hp htake
    rw [hfind]
    rfl
  · intro hall
    unfold Process.from_name
    rw [enum_process_toList, List.find?_map]
    have hnone : rows.find?
        ((fun p : ProcessInfo => strContains p.name name) ∘
          (fun r : PROCESSENTRY32W => (⟨r.th32ProcessID, r.szExeFile⟩ : ProcessInfo))) = none :=
      List.find?_eq_none.mpr (fun x hx => by
        have := hall x hx
        simp only [Function.comp]
        simp [this])
    rw [hnone]
    rfl
  · rfl

/-- Witness for C7 on the concrete alpha/beta-helper/beta directory with a
concrete succeeding OS. -/
theorem from_name_spec_witness :
    Process.from_name scen7os scen7rows "beta" = Process.from_pid scen7os 11 ∧
    Process.from_name scen7os scen7rows "zzz" = Except.error ProcErr.notFound := by
  constructor
  · exact (from_name_spec scen7os scen7rows "beta").1 1 (by decide) (by decide) (by decide)
  · exact (from_name_spec scen7os scen7rows "zzz").2.1 (by decide)

/-! ### Claim theorems about Process operations -/

/-- C8: `write_memory` returns the OS-reported written byte count when the
underlying write succeeds (which may be less than requested), returns 0 on
outright failure, and for a zero-length request against a write collaborator
that (per the platform contract) succeeds writing 0 bytes, it takes the
success branch and returns 0. -/
theorem write_memory_spec (api : WriteApi) (p : Process) (address : Nat) (data : List Nat) :
    (∀ n : Nat, api.writeProcessMemory p.handle address data = (true, n) →
      Process.write_memory api p address data = n)
    ∧ ((api.writeProcessMemory p.handle address data).1 = false →
      Process.write_memory api p address data = 0)
    ∧ (api.writeProcessMemory p.handle address [] = (true, 0) →
      Process.write_memory api p address [] = 0) := by
  refine ⟨?_, ?_, ?_⟩
  · intro n h
    unfold Process.write_memory
    simp [h]
  · intro h
    unfold Process.write_memory
    simp [h]
  · intro h
    unfold Process.write_memory
    simp [h]

/-- Witness for C8 with a concrete write collaborator reporting the
requested length as written. -/
theorem write_memory_spec_witness :
    Process.write_memory wapi8 procW 4096 [1, 2, 3] = 3 ∧
    Process.write_memory wapi8 procW 4096 [] = 0 :=
  ⟨(write_memory_spec wapi8 procW 4096 [1, 2, 3]).1 3 rfl,
   (write_memory_spec wapi8 procW 4096 []).2.2 rfl⟩

/-- C9: `get_address_by_symbol` returns the plain value 0 — its return type
`u64` carries no error at all — whenever the symbol-resolution session
reports not-found, and the resolved address when the session succeeds. -/
theorem get_address_by_symbol_spec (api : SymApi) (p : Process) (symbol : String) :
    ((api.symFromNameW p.handle symbol { address := 0 }).1 = false →
      Process.get_address_by_symbol api p symbol = 0)
    ∧ (∀ si : SYMBOL_INFOW,
      api.symFromNameW p.handle symbol { address := 0 } = (true, si) →
      Process.get_address_by_symbol api p symbol = si.address) := by
  constructor
  · intro h
    unfold Process.get_address_by_symbol
    simp [h]
  · intro si h
    unfold Process.get_address_by_symbol
    simp [h]

/-- Witness for C9 with a concrete failing and a concrete succeeding
resolution session. -/
theorem get_address_by_symbol_spec_witness :
    Process.get_address_by_symbol sapi9 procW "kernel32!CreateFileA" = 0 ∧
    Process.get_address_by_symbol sapi9ok procW "kernel32!CreateFileA" = 4660 :=
  ⟨(get_address_by_symbol_spec sapi9 procW "kernel32!CreateFileA").1 rfl,
   (get_address_by_symbol_spec sapi9ok procW "kernel32!CreateFileA").2 ⟨4660⟩ rfl⟩

/-! ### Helper lemmas for the module-listing buffers and loop -/

theorem take_replicate_zero :
    ∀ (n k : Nat), (List.replicate k (0 : Nat)).take n = List.replicate (min n k) 0
  | 0, k => by simp
  | n + 1, 0 => by simp
  | n + 1, k + 1 => by
    simp only [List.replicate_succ, List.take_succ_cons, take_replicate_zero n k,
      Nat.succ_min_succ]

theorem drop_replicate_zero :
    ∀ (n k : Nat), (List.replicate k (0 : Nat)).drop n = List.replicate (k - n) 0
  | 0, k => by simp
  | n + 1, 0 => by simp
  | n + 1, k + 1 => by
    simp only [List.replicate_succ, List.drop_succ_cons, drop_replicate_zero n k,
      Nat.succ_sub_succ]

theorem take_append_helper {α : Type} :
    ∀ (l₁ l₂ : List α) (n : Nat),
      (l₁ ++ l₂).take n = l₁.take n ++ l₂.take (n - l₁.length)
  | [], l₂, n => by simp
  | a :: t, l₂, 0 => by simp
  | a :: t, l₂, n + 1 => by
    simp only [List.cons_append, List.take_succ_cons, take_append_helper t l₂ n,
      List.length_cons, Nat.succ_sub_succ]

theorem get?_drop_helper {α : Type} :
    ∀ (l : List α) (i j : Nat), (l.drop i).get? j = l.get? (i + j)
  | _, 0, _ => by simp
  | [], _ + 1, _ => by simp
  | a :: t, i + 1, j => by
    rw [List.drop_succ_cons, get?_drop_helper t i j]
    have hidx : i + 1 + j = (i + j) + 1 := by omega
    rw [hidx]
    rfl

theorem writeBuf_replicate (k : Nat) (w : List Nat) :
    writeBuf (List.replicate k 0) w = w.take k ++ List.replicate (k - w.length) 0 := by
  unfold writeBuf
  rw [List.length_replicate, drop_replicate_zero]

theorem resizeBuf_length (buf : List Nat) (n : Nat) : (resizeBuf buf n).length = n := by
  unfold resizeBuf
  simp only [List.length_append, List.length_take, List.length_replicate]
  omega

theorem resizeBuf_replicate (k n : Nat) :
    resizeBuf (List.replicate k 0) n = List.replicate n 0 := by
  unfold resizeBuf
  rw [take_replicate_zero, List.length_replicate, ← List.replicate_add]
  congr 1
  omega

theorem bufAfterResize (w : List Nat) (k n : Nat) (hw : w.length ≤ k) :
    resizeBuf (writeBuf (List.replicate k 0) w) n
      = w.take n ++ List.replicate (n - w.length) 0 := by
  rw [writeBuf_replicate, List.take_of_length_le hw]
  unfold resizeBuf
  rw [take_append_helper, take_replicate_zero, List.append_assoc, ← List.replicate_add]
  congr 2
  simp only [List.length_append, List.length_replicate]
  omega

theorem modLoopGo_shift (api : ModuleApi) (p : Process) (buf : List Nat) :
    ∀ (fuel i j : Nat) (acc : List ModuleInfo),
      modLoopGo api p buf fuel (i + j) acc
        = modLoopGo api p (buf.drop i) fuel j acc := by
  intro fuel
  induction fuel with
  | zero => intro i j acc; rfl
  | succ fuel ih =>
    intro i j acc
    conv_lhs => unfold modLoopGo
    conv_rhs => unfold modLoopGo
    rw [get?_drop_helper]
    cases hg : buf.get? (i + j) with
    | none => rfl
    | some h =>
      simp only [hg]
      by_cases h0 : h = 0
      · simp [h0]
      · simp only [if_neg h0]
        cases hmi : api.getModuleInformation h with
        | none => exact ih i (j + 1) acc
        | some mi =>
          cases hnm : Process.get_module_name api p h with
          | ok nm => exact ih i (j + 1) (acc ++ [⟨nm, h, mi.sizeOfImage⟩])
          | error e => rfl

theorem modLoopGo_shift1 (api : ModuleApi) (p : Process) (buf : List Nat)
    (fuel : Nat) (acc : List ModuleInfo) :
    modLoopGo api p buf fuel 1 acc = modLoopGo api p (buf.drop 1) fuel 0 acc := by
  have h := modLoopGo_shift api p buf fuel 1 0 acc
  simpa using h

theorem modLoopGo_all_good (api : ModuleApi) (p : Process) :
    ∀ (hs : List Nat) (m needed : Nat) (acc : List ModuleInfo),
      hs.length ≤ needed → needed ≤ hs.length + m →
      (∀ x ∈ hs, x ≠ 0) →
      (∀ x ∈ hs, (api.getModuleInformation x).isSome = true) →
      (∀ x ∈ hs, (api.getModuleBaseName x).isSome = true) →
      ∃ l, modLoopGo api p (hs ++ List.replicate m 0) needed 0 acc = Except.ok l ∧
        l.length = acc.length + hs.length := by
  intro hs
  induction hs with
  | nil =>
    intro m needed acc h1 h2 _ _ _
    cases needed with
    | zero => exact ⟨acc, rfl, by simp⟩
    | succ k =>
      refine ⟨acc, ?_, by simp⟩
      have hm : 0 < m := by simp at h2; omega
      conv_lhs => unfold modLoopGo
      have hget : (([] : List Nat) ++ List.replicate m 0).get? 0 = some 0 := by
        simp [List.getElem?_replicate, hm]
      rw [hget]
      simp
  | cons h t ih =>
    intro m needed acc h1 h2 hnz hmi hbn
    obtain ⟨k, rfl⟩ : ∃ k, needed = k + 1 := ⟨needed - 1, by simp at h1; omega⟩
    have hh0 : h ≠ 0 := hnz h (by simp)
    obtain ⟨mi, hmi'⟩ := Option.isSome_iff_exists.mp (hmi h (by simp))
    obtain ⟨nm, hbn'⟩ := Option.isSome_iff_exists.mp (hbn h (by simp))
    have hname : Process.get_module_name api p h = Except.ok nm := by
      unfold Process.get_module_name
      rw [hbn']
    have hstep : modLoopGo api p ((h :: t) ++ List.replicate m 0) (k + 1) 0 acc
        = modLoopGo api p ((h :: t) ++ List.replicate m 0) k 1
            (acc ++ [⟨nm, h, mi.sizeOfImage⟩]) := by
      conv_lhs => unfold modLoopGo
      simp only [List.cons_append, List.get?_eq_getElem?, List.getElem?_cons_zero,
        if_neg hh0, hmi', hname, Nat.zero_add]
    obtain ⟨l, hl, hlen⟩ := ih m k (acc ++ [⟨nm, h, mi.sizeOfImage⟩])
      (by simp only [List.length_cons] at h1; omega)
      (by simp only [List.length_cons] at h2; omega)
      (fun x hx => hnz x (by simp [hx]))
      (fun x hx => hmi x (by simp [hx]))
      (fun x hx => hbn x (by simp [hx]))
    refine ⟨l, ?_, by simp at hlen ⊢; omega⟩
    rw [hstep, modLoopGo_shift1]
    exact hl

theorem modLoopGo_panics (api : ModuleApi) (p : Process) (h : Nat) (mi : MODULEINFO)
    (hh0 : h ≠ 0) (hmi : api.getModuleInformation h = some mi)
    (hbn : api.getModuleBaseName h = none) :
    ∀ (hs tail : List Nat) (needed : Nat) (acc : List ModuleInfo),
      hs.length < needed →
      (∀ x ∈ hs, x ≠ 0) →
      (∀ x ∈ hs, (api.getModuleInformation x).isSome = true) →
      (∀ x ∈ hs, (api.getModuleBaseName x).isSome = true) →
      modLoopGo api p (hs ++ h :: tail) needed 0 acc
        = Except.error (RtAbort.unwrapErr (api.nameError h)) := by
  have hname : Process.get_module_name api p h = Except.error (api.nameError h) := by
    unfold Process.get_module_name
    rw [hbn]
  intro hs
  induction hs with
  | nil =>
    intro tail needed acc hlen _ _ _
    obtain ⟨k, rfl⟩ : ∃ k, needed = k + 1 := ⟨needed - 1, by omega⟩
    conv_lhs => unfold modLoopGo
    simp only [List.nil_append, List.get?_eq_getElem?, List.getElem?_cons_zero,
      if_neg hh0, hmi, hname]
  | cons g t ih =>
    intro tail needed acc hlen hnz hmig hbng
    obtain ⟨k, rfl⟩ : ∃ k, needed = k + 1 := ⟨needed - 1, by omega⟩
    have hg0 : g ≠ 0 := hnz g (by simp)
    obtain ⟨gi, hgi⟩ := Option.isSome_iff_exists.mp (hmig g (by simp))
    obtain ⟨gn, hgn⟩ := Option.isSome_iff_exists.mp (hbng g (by simp))
    have hgname : Process.get_module_name api p g = Except.ok gn := by
      unfold Process.get_module_name
      rw [hgn]
    have hstep : modLoopGo api p ((g :: t) ++ h :: tail) (k + 1) 0 acc
        = modLoopGo api p ((g :: t) ++ h :: tail) k 1
            (acc ++ [⟨gn, g, gi.sizeOfImage⟩]) := by
      conv_lhs => unfold modLoopGo
      simp only [List.cons_append, List.get?_eq_getElem?, List.getElem?_cons_zero,
        if_neg hg0, hgi, hgname, Nat.zero_add]
    rw [hstep, modLoopGo_shift1]
    exact ih tail k (acc ++ [⟨gn, g, gi.sizeOfImage⟩])
      (by simp only [List.length_cons] at hlen; omega)
      (fun x hx => hnz x (by simp [hx]))
      (fun x hx => hmig x (by simp [hx]))
      (fun x hx => hbng x (by simp [hx]))

theorem get_modules_eq_first_ok (api : ModuleApi) (p : Process)
    (h1 : api.enumFirst.result = true) :
    Process.get_modules api p
      = { calls := [64],
          out := (modLoopGo api p
            (resizeBuf (writeBuf (List.replicate 64 0) api.enumFirst.written)
              api.enumFirst.needed)
            api.enumFirst.needed 0 []).map Option.some } := by
  unfold Process.get_modules
  simp [h1]

theorem get_modules_eq_retry_ok (api : ModuleApi) (p : Process)
    (h1 : api.enumFirst.result = false) (h2 : api.enumSecond.result = true) :
    Process.get_modules api p
      = { calls := [64, api.enumFirst.needed],
          out := (modLoopGo api p
            (writeBuf
              (resizeBuf (writeBuf (List.replicate 64 0) api.enumFirst.written)
                api.enumFirst.needed)
              api.enumSecond.written)
            api.enumSecond.needed 0 []).map Option.some } := by
  unfold Process.get_modules
  simp [h1, h2, resizeBuf_length]

theorem get_modules_eq_retry_fail (api : ModuleApi) (p : Process)
    (h1 : api.enumFirst.result = false) (h2 : api.enumSecond.result = false) :
    Process.get_modules api p
      = { calls := [64, api.enumFirst.needed], out := Except.ok Option.none } := by
  unfold Process.get_modules
  simp [h1, h2, resizeBuf_length]

theorem map_some_ne_ok_none (x : Except RtAbort (List ModuleInfo)) :
    x.map Option.some ≠ Except.ok Option.none := by
  cases x <;> simp [Except.map]

/-! ### Claim theorems about module listing -/

/-- C3: `get_modules` performs at most two module-enumeration queries, the
first over a 64-slot buffer; a second query happens exactly when the first
attempt fails, and then the buffer has been grown to exactly the slot count
the first query reported as needed; the result is the `None` return if and
only if both attempts fail; and in the fake-collaborator scenario — first
query fails reporting `N` needed and writes nothing, second succeeds
writing only non-null handles that fit the reported bound, per-module
queries succeeding — the returned `Some` list has exactly one entry per
non-null module handle the second call returned. -/
theorem get_modules_spec (api : ModuleApi) (p : Process) :
    ((Process.get_modules api p).calls.length ≤ 2 ∧
      (Process.get_modules api p).calls.head? = some 64)
    ∧ ((Process.get_modules api p).calls.length = 2 ↔ api.enumFirst.result = false)
    ∧ (api.enumFirst.result = false →
      (Process.get_modules api p).calls = [64, api.enumFirst.needed])
    ∧ ((Process.get_modules api p).out = Except.ok Option.none ↔
      (api.enumFirst.result = false ∧ api.enumSecond.result = false))
    ∧ (∀ hs : List Nat,
      api.enumFirst.result = false →
      api.enumFirst.written = [] →
      api.enumSecond.result = true →
      api.enumSecond.written = hs →
      (∀ x ∈ hs, x ≠ 0) →
      (∀ x ∈ hs, (api.getModuleInformation x).isSome = true) →
      (∀ x ∈ hs, (api.getModuleBaseName x).isSome = true) →
      hs.length ≤ api.enumSecond.needed →
      api.enumSecond.needed ≤ api.enumFirst.needed →
      ∃ l, (Process.get_modules api p).out = Except.ok (Option.some l) ∧
        l.length = hs.length) := by
  cases hr1 : api.enumFirst.result with
  | true =>
    rw [get_modules_eq_first_ok api p hr1]
    refine ⟨⟨by simp, rfl⟩, by simp [hr1], ?_, ?_, ?_⟩
    · intro hcontra
      simp at hcontra
    · constructor
      · intro hok
        exact absurd hok (map_some_ne_ok_none _)
      · intro hboth
        simp at hboth
    · intro hs h1 _ _ _ _ _ _ _ _
      simp at h1
  | false =>
    cases hr2 : api.enumSecond.result with
    | true =>
      rw [get_modules_eq_retry_ok api p hr1 hr2]
      refine ⟨⟨by simp, rfl⟩, by simp [hr1], fun _ => rfl, ?_, ?_⟩
      · constructor
        · intro hok
          exact absurd hok (map_some_ne_ok_none _)
        · intro hboth
          simp at hboth
      · intro hs _ hw1 _ hw2 hnz hmi hbn hle1 hle2
        have hbuf2 : resizeBuf (writeBuf (List.replicate 64 0) api.enumFirst.written)
            api.enumFirst.needed = List.replicate api.enumFirst.needed 0 := by
          rw [hw1, writeBuf_replicate]
          simp only [List.take_nil, List.length_nil, Nat.sub_zero, List.nil_append]
          exact resizeBuf_replicate 64 api.enumFirst.needed
        have hlehs : hs.length ≤ api.enumFirst.needed := le_trans hle1 hle2
        have hbuf3 : writeBuf (List.replicate api.enumFirst.needed 0) api.enumSecond.written
            = hs ++ List.replicate (api.enumFirst.needed - hs.length) 0 := by
          rw [hw2, writeBuf_replicate, List.take_of_length_le hlehs]
        obtain ⟨l, hl, hlen⟩ := modLoopGo_all_good api p hs
          (api.enumFirst.needed - hs.length) api.enumSecond.needed []
          hle1 (by omega) hnz hmi hbn
        refine ⟨l, ?_, by simpa using hlen⟩
        rw [hbuf2, hbuf3, hl]
        rfl
    | false =>
      rw [get_modules_eq_retry_fail api p hr1 hr2]
      refine ⟨⟨by simp, rfl⟩, by simp [hr1], fun _ => rfl, by simp [hr1, hr2], ?_⟩
      intro hs _ _ h2 _ _ _ _ _ _
      simp at h2

/-- Witness for C3 on the concrete buffer-growth scenario: first query
fails needing 3 slots, retry succeeds with handles 100 and 200. -/
theorem get_modules_spec_witness :
    (Process.get_modules api3 procW).calls = [64, 3] ∧
    ∃ l, (Process.get_modules api3 procW).out = Except.ok (Option.some l) ∧
      l.length = 2 := by
  constructor
  · exact (get_modules_spec api3 procW).2.2.1 rfl
  · exact (get_modules_spec api3 procW).2.2.2.2 [100, 200] rfl rfl rfl rfl
      (by decide) (by decide) (by decide) (by decide) (by decide)

/-- C10: when a non-null module handle reached by the loop has a succeeding
detailed-information query but a failing module-name query, `get_modules`
aborts — the `.unwrap()` on the name result panics, carrying the name
error code of the name query — instead of returning `None`, skipping the module, or
surfacing a typed error; the no-success branch of the name query is thus
reachable from `get_modules` and fatal there. -/
theorem get_modules_name_unwrap_panics (api : ModuleApi) (p : Process)
    (pre : List Nat) (h : Nat) (mi : MODULEINFO) :
    api.enumFirst.result = true →
    api.enumFirst.written = pre ++ [h] →
    (pre ++ [h]).length ≤ 64 →
    pre.length < api.enumFirst.needed →
    (∀ x ∈ pre, x ≠ 0) →
    (∀ x ∈ pre, (api.getModuleInformation x).isSome = true) →
    (∀ x ∈ pre, (api.getModuleBaseName x).isSome = true) →
    h ≠ 0 →
    api.getModuleInformation h = some mi →
    api.getModuleBaseName h = none →
    (Process.get_modules api p).out
      = Except.error (RtAbort.unwrapErr (api.nameError h)) := by
  intro h1 hw hlen64 hpre hnz hmi2 hbn2 hh0 hmi hbn
  rw [get_modules_eq_first_ok api p h1]
  have hbuf := bufAfterResize (pre ++ [h]) 64 api.enumFirst.needed hlen64
  have hlenle : (pre ++ [h]).length ≤ api.enumFirst.needed := by
    simp only [List.length_append, List.length_cons, List.length_nil]
    omega
  have htake : (pre ++ [h]).take api.enumFirst.needed = pre ++ [h] :=
    List.take_of_length_le hlenle
  rw [hw, hbuf, htake, List.append_assoc, List.singleton_append]
  rw [modLoopGo_panics api p h mi hh0 hmi hbn pre _ _ [] hpre hnz hmi2 hbn2]
  rfl

/-- Witness for C10: a concrete collaborator whose single module handle 100
has a succeeding information query and a name query failing with code 31;
`get_modules` aborts with that code. -/
theorem get_modules_name_unwrap_panics_witness :
    (Process.get_modules api10 procW).out
      = Except.error (RtAbort.unwrapErr 31) :=
  get_modules_name_unwrap_panics api10 procW [] 100 ⟨4096⟩ rfl rfl
    (by decide) (by decide) (by decide) (by decide) (by decide) (by decide)
    rfl rfl

end WinProc
